import Mathlib

/-!
Shallow embedding of the catalyst agent core (planning engine, tool registry,
LM orchestrator plan parsing) and proofs about it.

Python values flowing through `tool_args`, step dictionaries and JSON parsing
are modelled by the `Value` type below.  Machine-level aspects (threads, I/O)
are outside the embedding; the functions modelled here are the pure
data-transformation parts of the source.
-/

namespace Catalyst

/-- JSON-like Python value.  `float` stores the decimal literal text: the
modelled code never computes with floats, it only passes them through, so the
literal-level representation is enough. -/
inductive Value where
  | null : Value
  | bool (b : Bool) : Value
  | int (n : Int) : Value
  | float (lit : String) : Value
  | str (s : String) : Value
  | list (xs : List Value) : Value
  | dict (kvs : List (String × Value)) : Value
deriving Repr

mutual

/-- Structural equality on `Value` (Python `==` restricted to the JSON-like
values the modelled code compares). -/
def Value.beq : Value → Value → Bool
  | .null, .null => true
  | .bool a, .bool b => a == b
  | .int a, .int b => a == b
  | .float a, .float b => a == b
  | .str a, .str b => a == b
  | .list xs, .list ys => Value.beqList xs ys
  | .dict xs, .dict ys => Value.beqKVs xs ys
  | _, _ => false

def Value.beqList : List Value → List Value → Bool
  | [], [] => true
  | x :: xs, y :: ys => Value.beq x y && Value.beqList xs ys
  | _, _ => false

def Value.beqKVs : List (String × Value) → List (String × Value) → Bool
  | [], [] => true
  | (k1, v1) :: xs, (k2, v2) :: ys => k1 == k2 && Value.beq v1 v2 && Value.beqKVs xs ys
  | _, _ => false

end

instance : BEq Value := ⟨Value.beq⟩

/-- Python truthiness (`bool(v)`).  Float literals other than zero forms are
truthy; the modelled code never branches on float truthiness. -/
def truthy : Value → Bool
  | .null => false
  | .bool b => b
  | .int n => n != 0
  | .float lit => !(lit = "0" || lit = "0.0" || lit = "-0.0" || lit = "-0")
  | .str s => s != ""
  | .list xs => !xs.isEmpty
  | .dict kvs => !kvs.isEmpty

/-- Python `d.get(k)` on a dict: the stored value, `None` when absent. -/
def pyGet (kvs : List (String × Value)) (k : String) : Value :=
  match kvs.find? (fun kv => kv.1 = k) with
  | some kv => kv.2
  | none => .null

/-- Python `d.get(k, default)`. -/
def pyGetD (kvs : List (String × Value)) (k : String) (d : Value) : Value :=
  match kvs.find? (fun kv => kv.1 = k) with
  | some kv => kv.2
  | none => d

/-- Python `k in d` for a dict. -/
def pyHasKey (kvs : List (String × Value)) (k : String) : Bool :=
  (kvs.find? (fun kv => kv.1 = k)).isSome

end Catalyst

namespace Catalyst

/-! ### Character-level string utilities shared by the models -/

/-- The `{` character, written by code point to keep it out of literals. -/
def lbrace : Char := Char.ofNat 123

/-- The `}` character. -/
def rbrace : Char := Char.ofNat 125

/-- If `pat` is a leading run of `cs`, return the remainder. -/
def dropLeading : List Char → List Char → Option (List Char)
  | [], cs => some cs
  | _ :: _, [] => none
  | p :: ps, c :: cs => if p = c then dropLeading ps cs else none

/-- Python `needle in hay` on strings (substring containment). -/
def subListAt : List Char → List Char → Bool
  | needle, [] => needle.isEmpty
  | needle, c :: rest => (dropLeading needle (c :: rest)).isSome || subListAt needle rest

def strContainsSub (hay needle : String) : Bool :=
  subListAt needle.toList hay.toList

/-- Longest leading run of decimal digits, with the rest. -/
def takeDigits : List Char → List Char × List Char
  | [] => ([], [])
  | c :: cs =>
    if c.isDigit then
      let (ds, rest) := takeDigits cs
      (c :: ds, rest)
    else ([], c :: cs)

/-- Value of a digit string (Python `int` on a run of digits). -/
def digitsToNat (ds : List Char) : Nat :=
  ds.foldl (fun acc c => acc * 10 + (c.toNat - 48)) 0

/-- Python `str.lower()` (ASCII; every string the modelled code lowercases
is ASCII). -/
def pyLower (s : String) : String :=
  String.mk (s.toList.map Char.toLower)

end Catalyst

namespace Catalyst

/-! ### Python `str()` and `json.dumps` on modelled values -/

def jsonHexDigit (n : Nat) : Char :=
  if n < 10 then Char.ofNat (48 + n) else Char.ofNat (87 + n)

/-- `\uXXXX` escape for a 16-bit code unit. -/
def uEscape (n : Nat) : List Char :=
  ['\\', 'u', jsonHexDigit (n / 4096 % 16), jsonHexDigit (n / 256 % 16),
   jsonHexDigit (n / 16 % 16), jsonHexDigit (n % 16)]

/-- Escaping of one character under `json.dumps` defaults (`ensure_ascii=True`):
`"` and `\` are escaped, the named control escapes are used, other characters
outside the printable ASCII range become `\uXXXX` (surrogate pairs above the
BMP). -/
def jsonEscapeChar (c : Char) : List Char :=
  if c = '"' then ['\\', '"']
  else if c = '\\' then ['\\', '\\']
  else if c = Char.ofNat 10 then ['\\', 'n']
  else if c = Char.ofNat 9 then ['\\', 't']
  else if c = Char.ofNat 13 then ['\\', 'r']
  else if c = Char.ofNat 8 then ['\\', 'b']
  else if c = Char.ofNat 12 then ['\\', 'f']
  else if 32 ≤ c.toNat && c.toNat ≤ 126 then [c]
  else if c.toNat < 65536 then uEscape c.toNat
  else
    let v := c.toNat - 65536
    uEscape (55296 + v / 1024) ++ uEscape (56320 + v % 1024)

def jsonEscape (s : String) : String :=
  String.mk (s.toList.foldr (fun c acc => jsonEscapeChar c ++ acc) [])

mutual

/-- `json.dumps` with default arguments (separators `", "` and `": "`,
`ensure_ascii=True`).  Dict keys in the modelled values are always strings,
matching the JSON-derived data the source passes here. -/
def pyJsonDumps : Value → String
  | .null => "null"
  | .bool true => "true"
  | .bool false => "false"
  | .int n => toString n
  | .float lit => lit
  | .str s => "\"" ++ jsonEscape s ++ "\""
  | .list xs => "[" ++ dumpsList xs ++ "]"
  | .dict kvs => "\x7b" ++ dumpsKVs kvs ++ "\x7d"

def dumpsList : List Value → String
  | [] => ""
  | [x] => pyJsonDumps x
  | x :: y :: rest => pyJsonDumps x ++ ", " ++ dumpsList (y :: rest)

def dumpsKVs : List (String × Value) → String
  | [] => ""
  | [(k, v)] => "\"" ++ jsonEscape k ++ "\": " ++ pyJsonDumps v
  | (k, v) :: p :: rest =>
    "\"" ++ jsonEscape k ++ "\": " ++ pyJsonDumps v ++ ", " ++ dumpsKVs (p :: rest)

end

/-- Python `str()`.  The engine only ever calls `str` on non-container values
(dicts and lists are routed to `json.dumps` first), so the container branches
are never reached from the modelled call sites. -/
def pyStr : Value → String
  | .null => "None"
  | .bool true => "True"
  | .bool false => "False"
  | .int n => toString n
  | .float lit => lit
  | .str s => s
  | .list xs => pyJsonDumps (.list xs)
  | .dict kvs => pyJsonDumps (.dict kvs)

/-! ### Placeholder scanning: the regex `\{step_(\d+)_result\}` -/

def tokenStart : List Char := lbrace :: "step_".toList

def tokenEnd : List Char := "_result".toList ++ [rbrace]

def tokenChars (ds : List Char) : List Char := tokenStart ++ ds ++ tokenEnd

def tokenStr (ds : List Char) : String := String.mk (tokenChars ds)

/-- One attempt of the regex at the current position.  Greedy `\d+` followed
by the literal tail equals maximal-munch here because the character after the
digit run must be `_`, which is not a digit, so backtracking cannot succeed
with a shorter run. -/
def matchToken (cs : List Char) : Option (String × Nat × List Char) :=
  match dropLeading tokenStart cs with
  | none => none
  | some cs1 =>
    let p := takeDigits cs1
    if p.1.isEmpty then none
    else
      match dropLeading tokenEnd p.2 with
      | none => none
      | some cs3 => some (String.mk (tokenStart ++ p.1 ++ tokenEnd), digitsToNat p.1, cs3)

/-- `re.finditer` over the pattern: left-to-right, non-overlapping.  Fuelled
by the input length; every successful match consumes at least one character,
so `findMatches` below always supplies enough fuel. -/
def findF : Nat → List Char → List (String × Nat)
  | 0, _ => []
  | _ + 1, [] => []
  | fuel + 1, c :: rest =>
    match matchToken (c :: rest) with
    | some (tok, n, rest2) => (tok, n) :: findF fuel rest2
    | none => findF fuel rest

def findMatches (cs : List Char) : List (String × Nat) :=
  findF cs.length cs

/-- Python `s.replace(pat, rep)`: all occurrences, leftmost, non-overlapping,
scanning the original string.  Fuelled like `findF`.  The modelled code only
calls this with the non-empty placeholder token as `pat`; the `pat = []`
branch is inert. -/
def replaceF (pat rep : List Char) : Nat → List Char → List Char
  | 0, cs => cs
  | _ + 1, [] => []
  | fuel + 1, c :: rest =>
    if pat.isEmpty then c :: rest
    else
      match dropLeading pat (c :: rest) with
      | some r => rep ++ replaceF pat rep fuel r
      | none => c :: replaceF pat rep fuel rest

def pyReplaceAll (s pat rep : String) : String :=
  String.mk (replaceF pat.toList rep.toList s.toList.length s.toList)

end Catalyst

namespace Catalyst

/-! ### `PlanningEngine._resolve_placeholders` -/

/-- `executed_steps[i].get('result')`: the executed-steps list holds the dict
form of each executed step. -/
def stepResultAt (es : List (List (String × Value))) (i : Nat) : Value :=
  pyGet (es.getD i []) "result"

/-- The bound check `0 <= step_index < len(executed_steps)` for the 1-based
placeholder number `n` (`step_index = n - 1`). -/
def placeholderInRange (es : List (List (String × Value))) (n : Nat) : Bool :=
  decide (1 ≤ n) && decide (n - 1 < es.length)

/-- The string substituted for an embedded placeholder:
`json.dumps(step_result) if isinstance(step_result, (dict, list)) else
str(step_result)`. -/
def encodeEmbedded : Value → String
  | .dict kvs => pyJsonDumps (.dict kvs)
  | .list xs => pyJsonDumps (.list xs)
  | v => pyStr v

/-- One iteration of the `for match in reversed(matches)` loop. -/
def embedStep (es : List (List (String × Value))) (acc : String) (m : String × Nat) : String :=
  if placeholderInRange es m.2 then
    pyReplaceAll acc m.1 (encodeEmbedded (stepResultAt es (m.2 - 1)))
  else acc

/-- The string case of `_resolve_placeholders`. -/
def resolveString (es : List (List (String × Value))) (s : String) : Value :=
  let ms := findMatches s.toList
  match ms with
  | [] => .str s
  | [(tok, n)] =>
    if tok = s then
      if placeholderInRange es n then stepResultAt es (n - 1) else .str s
    else .str (ms.reverse.foldl (embedStep es) s)
  | _ => .str (ms.reverse.foldl (embedStep es) s)

mutual

/-- `PlanningEngine._resolve_placeholders`: recursive walk over strings,
dicts and lists; other values pass through. -/
def resolvePlaceholders (es : List (List (String × Value))) : Value → Value
  | .str s => resolveString es s
  | .dict kvs => .dict (resolveKVs es kvs)
  | .list xs => .list (resolveList es xs)
  | .null => .null
  | .bool b => .bool b
  | .int n => .int n
  | .float lit => .float lit

def resolveList (es : List (List (String × Value))) : List Value → List Value
  | [] => []
  | x :: xs => resolvePlaceholders es x :: resolveList es xs

def resolveKVs (es : List (List (String × Value))) : List (String × Value) → List (String × Value)
  | [] => []
  | (k, v) :: rest => (k, resolvePlaceholders es v) :: resolveKVs es rest

end

end Catalyst

namespace Catalyst

/-! ### Plan model (`planning/base.py`) -/

inductive PStatus where
  | pending
  | in_progress
  | completed
  | failed
  | blocked
deriving DecidableEq, Repr

/-- `PlanStatus(value)`: succeeds exactly on the five enum value strings. -/
def statusOfString : String → Option PStatus
  | "pending" => some .pending
  | "in_progress" => some .in_progress
  | "completed" => some .completed
  | "failed" => some .failed
  | "blocked" => some .blocked
  | _ => none

/-- A plan step.  Fields that Python types loosely (ids, descriptions,
arguments, results) are carried as `Value`; `status` holds a `PlanStatus`
enum member as in the source. -/
structure PlanStep where
  id : Value
  description : Value
  tool_name : Value
  tool_args : Value
  depends_on : Value
  status : PStatus
  result : Value
  error : Value
  metadata : Value
deriving Repr

/-- `Plan.update_status`, as a function of the steps. -/
def foldPlanStatus (steps : List PlanStep) : PStatus :=
  if steps.isEmpty then .pending
  else if steps.any (fun s => s.status == PStatus.failed) then .failed
  else if steps.all (fun s => s.status == PStatus.completed) then .completed
  else if steps.any (fun s => s.status == PStatus.in_progress) then .in_progress
  else if steps.any (fun s => s.status == PStatus.pending) then .pending
  else .in_progress

/-- `PlanStep.from_dict`.  `fresh` is the uuid drawn when `id` is missing or
falsy.  Invalid status strings fall back to `PENDING` (the `ValueError` is
caught inside `from_dict`); the modelled call site always passes a string
status, so the non-string branch is not exercised. -/
def planStepFromDict (fresh : String) (kvs : List (String × Value)) : PlanStep :=
  let description0 := pyGetD kvs "description" (.str "No description provided")
  let description :=
    if Value.beq description0 .null || Value.beq description0 (.str "") then .str "No description provided"
    else description0
  let idv := pyGet kvs "id"
  let step_id := if truthy idv then idv else .str fresh
  let status :=
    match pyGetD kvs "status" (.str "pending") with
    | .str s => (statusOfString s).getD .pending
    | _ => .pending
  let ta := pyGetD kvs "tool_args" (.dict [])
  let dep := pyGetD kvs "depends_on" (.list [])
  { id := step_id
    description := description
    tool_name := pyGet kvs "tool_name"
    tool_args := if truthy ta then ta else .dict []
    depends_on := if truthy dep then dep else .list []
    status := status
    result := pyGet kvs "result"
    error := pyGet kvs "error"
    metadata := pyGetD kvs "metadata" (.dict []) }

/-! ### Plan reconstruction after re-evaluation
(`PlanningEngine.execute_next_step`, the adoption of the returned plan) -/

/-- Lookup in `{s.id: s for s in steps if s.status == COMPLETED}`.  Built by
insertion, so on duplicate ids the last completed step wins. -/
def completedIndexFind (steps : List PlanStep) (idv : Value) : Option PlanStep :=
  ((steps.filter (fun s => s.status == PStatus.completed)).reverse).find?
    (fun s => Value.beq s.id idv)

/-- The `else` branch: build a fresh `PlanStep` from the mapped keys. -/
def reconstructNewStep (fresh : String) (kvs : List (String × Value))
    (step_id description : Value) (status_str : String) : PlanStep :=
  let ta0 := pyGet kvs "tool_args"
  let ta1 := pyGet kvs "parameters"
  let tool_args :=
    if truthy ta0 then ta0 else if truthy ta1 then ta1 else pyGetD kvs "arguments" (.dict [])
  planStepFromDict fresh
    [("id", step_id), ("description", description),
     ("tool_name", pyGet kvs "tool_name"), ("tool_args", tool_args),
     ("depends_on", pyGetD kvs "depends_on" (.list [])),
     ("status", .str status_str), ("result", pyGet kvs "result"),
     ("error", pyGet kvs "error"), ("metadata", pyGetD kvs "metadata" (.dict []))]

/-- Processing of one entry of the returned step list.  `steps` is the plan's
step list from which the completed-index was built.  An exception (non-string
status reaching `.lower()`, or `PlanStatus(status_str)` on an unknown status
in the reuse branch) is surfaced as `.error`. -/
def reconstructEntry (steps : List PlanStep) (fresh : String)
    (kvs : List (String × Value)) : Except String PlanStep :=
  let idv := pyGet kvs "id"
  let step_id := if truthy idv then idv else .str fresh
  let d0 := pyGet kvs "description"
  let desc0 := if truthy d0 then d0 else pyGet kvs "task"
  let description := if truthy desc0 then desc0 else .str "No description provided"
  match pyGetD kvs "status" (.str "pending") with
  | .str status_str =>
    if (completedIndexFind steps step_id).isSome && (pyLower status_str != "pending") then
      match completedIndexFind steps step_id with
      | some orig =>
        match statusOfString status_str with
        | some st => .ok { orig with status := st }
        | none => .error "ValueError: invalid PlanStatus"
      | none => .error "unreachable"
    else
      .ok (reconstructNewStep fresh kvs step_id description status_str)
  | _ => .error "AttributeError: status has no lower()"

/-- The reconstruction loop over the step list returned by re-evaluation.
Non-dict entries are logged and skipped; `fresh i` is the uuid generated for
the `i`-th entry when it lacks an id. -/
def goRecon (steps : List PlanStep) (fresh : Nat → String) (i : Nat) :
    List Value → Except String (List PlanStep)
  | [] => .ok []
  | e :: rest =>
    match e with
    | .dict kvs =>
      match reconstructEntry steps (fresh i) kvs with
      | .ok st => (goRecon steps fresh (i + 1) rest).map (fun l => st :: l)
      | .error msg => .error msg
    | _ => goRecon steps fresh (i + 1) rest

/-- `plan.steps` after adopting the structure returned by re-evaluation. -/
def reconstructSteps (steps : List PlanStep) (fresh : Nat → String)
    (entries : List Value) : Except String (List PlanStep) :=
  goRecon steps fresh 0 entries

end Catalyst

namespace Catalyst

/-! ### ToolResult and the tool registry (`tools/base.py`) -/

/-- `ToolResult`.  `error` is `Optional[str]` in the source. -/
structure ToolResult where
  success : Bool
  data : Value
  error : Option String
deriving Repr

/-- `PlanStatus.value` strings. -/
def statusValue : PStatus → String
  | .pending => "pending"
  | .in_progress => "in_progress"
  | .completed => "completed"
  | .failed => "failed"
  | .blocked => "blocked"

/-- `PlanStep.to_dict`. -/
def PlanStep.toDict (s : PlanStep) : Value :=
  .dict [("id", s.id), ("description", s.description), ("tool_name", s.tool_name),
         ("tool_args", s.tool_args), ("depends_on", s.depends_on),
         ("status", .str (statusValue s.status)), ("result", s.result),
         ("error", s.error), ("metadata", s.metadata)]

/-- A registered error handler: the dict a tool's `get_error_handlers` maps a
pattern to.  `description` is `none` when the key is absent (so the default
text is used); `tool` is the value under `'tool'` (`None` when absent);
`argGen` is the `arg_generator` callable. -/
structure Handler where
  description : Option Value
  tool : Value
  argGen : Option (String → Value → Value)

/-- `ToolRegistry.find_error_handler`: first registered pattern that occurs
as a substring of the error text; `None` on a falsy error text. -/
def find_error_handler (handlers : List (String × Handler)) (error_message : String) :
    Option Handler :=
  if error_message = "" then none
  else (handlers.find? (fun p => strContainsSub error_message p.1)).map (fun p => p.2)

structure RecoveryStep where
  description : Value
  tool_name : Value
  tool_args : Value

/-- `ToolRegistry.create_recovery_step`. -/
def create_recovery_step (handlers : List (String × Handler)) (error_message : String)
    (failed_step : Value) : Option RecoveryStep :=
  match find_error_handler handlers error_message with
  | none => none
  | some h =>
    if truthy h.tool then
      match h.argGen with
      | some gen =>
        some { description := h.description.getD (.str ("Recover from error using " ++ pyStr h.tool)),
               tool_name := h.tool, tool_args := gen error_message failed_step }
      | none => none
    else none

/-- A registered tool, for `execute_tool`: its behaviour is abstract. -/
structure RegTool where
  name : String
  execute : Value → ToolResult
  preExec : Option (Value → Option Value)
  postExec : Option (ToolResult → Value → Option ToolResult)

inductive ToolEvent where
  | toolInput (tool_name : String) (tool_args : Value)
  | toolOutput (tool_name : String) (success : Bool) (data : Value) (error : Option String)

/-- `ToolRegistry.get_tool` (dict lookup by name). -/
def getToolReg (tools : List RegTool) (name : String) : Option RegTool :=
  tools.find? (fun t => t.name = name)

/-- `ToolRegistry.execute_tool`, returning the result together with the
events published on the tool's queue.  A missing name returns the error
result and publishes nothing. -/
def execute_tool (tools : List RegTool) (name : String) (args : Value) :
    ToolResult × List ToolEvent :=
  match getToolReg tools name with
  | none => ({ success := false, data := .null, error := some ("Tool '" ++ name ++ "' not found") }, [])
  | some t =>
    let args1 :=
      match t.preExec with
      | some f => match f args with | some m => m | none => args
      | none => args
    let r := t.execute args1
    let r2 :=
      match t.postExec with
      | some g => match g r args1 with | some m => m | none => r
      | none => r
    (r2, [.toolInput t.name args1, .toolOutput t.name r.success r.data r.error])

end Catalyst

namespace Catalyst

/-! ### `AgentExecutor.execute_step` (`agent.py`) -/

/-- Python `str.strip()` restricted to ASCII whitespace. -/
def pyStrip (s : String) : String :=
  let ws := fun c : Char => c = ' ' || c = Char.ofNat 9 || c = Char.ofNat 10 ||
    c = Char.ofNat 13 || c = Char.ofNat 12 || c = Char.ofNat 11
  String.mk (((s.toList.dropWhile ws).reverse.dropWhile ws).reverse)

/-- Extraction of the corrected code from the LM's reply: take what stands
between the first fence markers, as in the source's `split` chain. -/
def extractFixedCode (resp : String) : String :=
  if strContainsSub resp "```python" then
    pyStrip ((((resp.splitOn "```python").getD 1 "").splitOn "```").getD 0 "")
  else if strContainsSub resp "```" then
    pyStrip ((((resp.splitOn "```").getD 1 "").splitOn "```").getD 0 "")
  else resp

/-- `"code" in step.tool_args and isinstance(step.tool_args["code"], str)`. -/
def hasStrCode (args : Value) : Bool :=
  match args with
  | .dict kvs =>
    pyHasKey kvs "code" && (match pyGet kvs "code" with | .str _ => true | _ => false)
  | _ => false

/-- In-place update of an existing dict key (`args["code"] = fixed`). -/
def dictSet (v : Value) (k : String) (nv : Value) : Value :=
  match v with
  | .dict kvs => .dict (kvs.map (fun kv => if kv.1 = k then (kv.1, nv) else kv))
  | other => other

/-- Outcome of the tool branch of `execute_step`: the sequence of
`execute_tool` invocations (tool name and arguments of each), the result the
branch settles on, and the step's `tool_args` afterwards (the code-fix path
mutates them). -/
structure ToolBranchOut where
  calls : List (Value × Value)
  final : ToolResult
  finalArgs : Value
deriving Repr

/-- The tool branch of `AgentExecutor.execute_step`.  `oracle k` is the
result of the `k`-th `execute_tool` invocation made while handling this step;
`llmFixResponse` is the LM's answer to the fix-this-code prompt (consulted
only on the code-fix path). -/
def runToolStep (oracle : Nat → ToolResult) (handlers : List (String × Handler))
    (llmFixResponse : String) (step : PlanStep) : ToolBranchOut :=
  let r1 := oracle 0
  let c0 := (step.tool_name, step.tool_args)
  if r1.success then { calls := [c0], final := r1, finalArgs := step.tool_args }
  else
    match r1.error with
    | some e =>
      if e = "" then { calls := [c0], final := r1, finalArgs := step.tool_args }
      else
        match create_recovery_step handlers e step.toDict with
        | some rs =>
          let r2 := oracle 1
          if r2.success then
            { calls := [c0, (rs.tool_name, rs.tool_args), c0], final := oracle 2,
              finalArgs := step.tool_args }
          else
            { calls := [c0, (rs.tool_name, rs.tool_args)], final := r1,
              finalArgs := step.tool_args }
        | none =>
          if hasStrCode step.tool_args then
            let args2 := dictSet step.tool_args "code" (.str (extractFixedCode llmFixResponse))
            { calls := [c0, (step.tool_name, args2)], final := oracle 1, finalArgs := args2 }
          else { calls := [c0], final := r1, finalArgs := step.tool_args }
    | none => { calls := [c0], final := r1, finalArgs := step.tool_args }

/-- `step.result = result.data if result.success else None` and
`step.error = result.error if not result.success else None`. -/
def recordToolOutcome (r : ToolResult) : Value × Value :=
  (if r.success then r.data else .null,
   if r.success then .null else (match r.error with | some s => .str s | none => .null))

/-- The verb set the executor checks non-tool step descriptions against. -/
def generationKeywords : List String :=
  ["generate", "create", "tell", "write", "compose", "explain", "answer", "provide", "describe"]

def isGenerationStep (description : String) : Bool :=
  generationKeywords.any (fun k => strContainsSub (pyLower description) k)

structure NonToolOut where
  result : Value
  lmInvoked : Bool
deriving Repr

/-- The non-tool branch of `execute_step`: generation steps ask the LM,
other steps succeed immediately; an empty (falsy) response also falls back
to the fixed success string. -/
def runNonToolStep (llmResponse : String) (description : String) : NonToolOut :=
  if isGenerationStep description then
    { result := if llmResponse = "" then .str "Step completed successfully" else .str llmResponse,
      lmInvoked := true }
  else
    { result := .str "Step completed successfully", lmInvoked := false }

/-! ### `PlanningEngine.execute_next_step`: duplicate detection and dispatch -/

/-- The duplicate check over the executed-steps dicts.  Descriptions are
strings in every plan the source builds (a non-string would raise at
`.lower()`), so the comparison is modelled on strings. -/
def isDuplicateStep (executed : List (List (String × Value))) (step : PlanStep) : Bool :=
  executed.any (fun d =>
    (match pyGetD d "description" (.str ""), step.description with
     | .str ed, .str sd => pyLower ed == pyLower sd
     | _, _ => false)
    && Value.beq (pyGet d "tool_name") step.tool_name)

structure EngineStepOut where
  step : PlanStep
  executorInvoked : Bool

/-- Processing of the selected step in `execute_next_step` up to the
re-evaluation call: duplicate skip, placeholder resolution, dispatch to the
executor (`runExec` stands for `executor.execute_step`; the registry and the
LM are reachable only through it). -/
def engineStepCore (executed : List (List (String × Value)))
    (runExec : PlanStep → Bool × PlanStep) (step : PlanStep) : EngineStepOut :=
  if isDuplicateStep executed step then
    let skipped : PlanStep :=
      { step with status := PStatus.completed,
                  result := Value.str "Step skipped to avoid duplication of previous step" }
    { step := skipped, executorInvoked := false }
  else
    let stepR : PlanStep :=
      { step with tool_args := resolvePlaceholders executed step.tool_args,
                  status := PStatus.in_progress }
    let out := runExec stepR
    { step := { out.2 with status := if out.1 then PStatus.completed else PStatus.failed },
      executorInvoked := true }

end Catalyst

namespace Catalyst

/-! ### `AgentCore._generate_success_response` (`agent.py`) -/

inductive SuccessOut where
  | stepResult (v : Value)
  | generic
  | llm (message : String)
deriving Repr

def SuccessOut.isLlm : SuccessOut → Bool
  | .llm _ => true
  | _ => false

/-- The phrase list the reasoning text is searched for. -/
def noToolPhrases : List String :=
  ["no tools needed", "no tool required", "language generation",
   "can be accomplished directly", "without using tools", "language task",
   "creative", "explanation", "general knowledge", "straightforward",
   "counting", "analysis", "directly"]

/-- The plan as `_generate_success_response` reads it. -/
structure PlanModel where
  goal : String
  steps : List PlanStep
  metadata : List (String × Value)

/-- The fixed template returned when no tools were used and the plan was not
deliberately tool-free. -/
def genericNoToolsMessage : String :=
  "I understand your request. However, I currently don't have the necessary tools to accomplish this task. As my capabilities develop, I'll be able to assist with more complex requests."

/-- The deliberate-no-tools detection.  The reasoning value is a string in
every plan the source constructs (`plan.metadata['reasoning']` is set from
parsed JSON text); a non-string would raise at `.lower()`. -/
def deliberateNoTools (metadata : List (String × Value)) (toolStepsEmpty : Bool) : Bool :=
  if pyHasKey metadata "reasoning" && toolStepsEmpty then
    match pyGet metadata "reasoning" with
    | .str r => noToolPhrases.any (fun ph => strContainsSub (pyLower r) ph)
    | _ => false
  else false

/-- The early-return filter: a non-tool step with a truthy result other than
the fixed success string. -/
def nonToolResultStep (s : PlanStep) : Bool :=
  !truthy s.tool_name && truthy s.result &&
    !Value.beq s.result (.str "Step completed successfully")

/-- `_generate_success_response`: which response is produced for a
successfully executed plan. -/
def generateSuccessResponse (p : PlanModel) : SuccessOut :=
  let toolSteps := p.steps.filter (fun s => truthy s.tool_name)
  let deliberate := deliberateNoTools p.metadata toolSteps.isEmpty
  match p.steps.find? nonToolResultStep with
  | some s => .stepResult s.result
  | none =>
    if toolSteps.isEmpty && !deliberate then .generic
    else if toolSteps.isEmpty && deliberate then
      if strContainsSub (pyLower p.goal) "count" || strContainsSub (pyLower p.goal) "how many" then
        .llm ("Please directly answer this question: " ++ p.goal)
      else .llm p.goal
    else .llm p.goal

end Catalyst

namespace Catalyst

/-! ### `json.loads` and `LLMManager.generate_plan` result handling (`llm.py`) -/

/-- JSON whitespace (` \t\n\r`). -/
def skipWs : List Char → List Char
  | [] => []
  | c :: cs =>
    if c = ' ' || c = Char.ofNat 9 || c = Char.ofNat 10 || c = Char.ofNat 13 then skipWs cs
    else c :: cs

def hexVal (c : Char) : Option Nat :=
  if c.isDigit then some (c.toNat - 48)
  else if 97 ≤ c.toNat && c.toNat ≤ 102 then some (c.toNat - 87)
  else if 65 ≤ c.toNat && c.toNat ≤ 70 then some (c.toNat - 55)
  else none

def jsonEscMap (c : Char) : Option Char :=
  if c = '"' then some '"'
  else if c = '\\' then some '\\'
  else if c = '/' then some '/'
  else if c = 'b' then some (Char.ofNat 8)
  else if c = 'f' then some (Char.ofNat 12)
  else if c = 'n' then some (Char.ofNat 10)
  else if c = 'r' then some (Char.ofNat 13)
  else if c = 't' then some (Char.ofNat 9)
  else none

/-- JSON string body after the opening quote, in strict mode (raw control
characters rejected).  `\uXXXX` escapes in the surrogate range are outside
the model (Lean characters are scalar values); the inputs considered never
contain them. -/
def parseJStringAux : List Char → Option (List Char × List Char)
  | [] => none
  | c :: cs =>
    if c = '"' then some ([], cs)
    else if c = '\\' then
      match cs with
      | [] => none
      | e :: cs2 =>
        if e = 'u' then
          match cs2 with
          | a :: b :: c3 :: d :: rest =>
            match hexVal a, hexVal b, hexVal c3, hexVal d with
            | some x, some y, some z, some w =>
              let n := ((x * 16 + y) * 16 + z) * 16 + w
              if 55296 ≤ n && n < 57344 then none
              else (parseJStringAux rest).map (fun p => (Char.ofNat n :: p.1, p.2))
            | _, _, _, _ => none
          | _ => none
        else
          match jsonEscMap e with
          | some ch => (parseJStringAux cs2).map (fun p => (ch :: p.1, p.2))
          | none => none
    else if c.toNat < 32 then none
    else (parseJStringAux cs).map (fun p => (c :: p.1, p.2))

/-- Optional fraction part: `.digits+`, else nothing is consumed. -/
def parseFrac : List Char → Option (List Char) × List Char
  | [] => (none, [])
  | d :: r =>
    if d = '.' then
      let t := takeDigits r
      if t.1.isEmpty then (none, d :: r) else (some t.1, t.2)
    else (none, d :: r)

/-- Optional exponent part: `[eE][+-]?digits+`, else nothing is consumed. -/
def parseExp : List Char → Option (List Char) × List Char
  | [] => (none, [])
  | e :: r =>
    if e = 'e' || e = 'E' then
      match r with
      | [] => (none, [e])
      | s :: r2 =>
        if s = '+' || s = '-' then
          let t := takeDigits r2
          if t.1.isEmpty then (none, e :: s :: r2) else (some (e :: s :: t.1), t.2)
        else
          let t := takeDigits (s :: r2)
          if t.1.isEmpty then (none, e :: s :: r2) else (some (e :: t.1), t.2)
    else (none, e :: r)

/-- JSON number, with the leading `-` already consumed when `neg`.  The
integer part is `0` or a digit run without a leading zero; a fraction or
exponent makes the literal a float, otherwise it is an int. -/
def parseJNumber (neg : Bool) (cs : List Char) : Option (Value × List Char) :=
  match cs with
  | [] => none
  | c :: rest =>
    if !c.isDigit then none
    else
      let ip : List Char × List Char :=
        if c = '0' then ([c], rest) else takeDigits (c :: rest)
      let f := parseFrac ip.2
      let ex := parseExp f.2
      match f.1, ex.1 with
      | none, none =>
        some (.int (if neg then -(digitsToNat ip.1 : Int) else (digitsToNat ip.1 : Int)), ip.2)
      | fo, eo =>
        let sign : List Char := if neg then ['-'] else []
        let fracPart : List Char := match fo with | some fd => '.' :: fd | none => []
        let expPart : List Char := match eo with | some ec => ec | none => []
        some (.float (String.mk (sign ++ ip.1 ++ fracPart ++ expPart)), ex.2)

/-- Insertion into a Python dict under construction: an existing key keeps
its position and takes the new value, a new key is appended. -/
def dictInsert (kvs : List (String × Value)) (k : String) (v : Value) :
    List (String × Value) :=
  if pyHasKey kvs k then kvs.map (fun kv => if kv.1 = k then (kv.1, v) else kv)
  else kvs ++ [(k, v)]

def buildDict (pairs : List (String × Value)) : List (String × Value) :=
  pairs.foldl (fun acc kv => dictInsert acc kv.1 kv.2) []

mutual

/-- JSON value parser (`json.loads` grammar including the Python extensions
`NaN`, `Infinity`, `-Infinity`).  The input starts at a non-whitespace
character; fuel decreases on every recursive step and each step consumes at
least one character, so `length + 1` fuel always suffices. -/
def parseJValue : Nat → List Char → Option (Value × List Char)
  | 0, _ => none
  | fuel + 1, cs =>
    match cs with
    | [] => none
    | c :: rest =>
      if c = '"' then (parseJStringAux rest).map (fun p => (.str (String.mk p.1), p.2))
      else if c = lbrace then
        (parseJObjItems fuel (skipWs rest) true).map (fun p => (.dict (buildDict p.1), p.2))
      else if c = '[' then
        (parseJArrItems fuel (skipWs rest) true).map (fun p => (.list p.1, p.2))
      else if c = 't' then (dropLeading "rue".toList rest).map (fun r => (.bool true, r))
      else if c = 'f' then (dropLeading "alse".toList rest).map (fun r => (.bool false, r))
      else if c = 'n' then (dropLeading "ull".toList rest).map (fun r => (.null, r))
      else if c = 'N' then (dropLeading "aN".toList rest).map (fun r => (.float "nan", r))
      else if c = 'I' then (dropLeading "nfinity".toList rest).map (fun r => (.float "inf", r))
      else if c = '-' then
        match rest with
        | 'I' :: r2 => (dropLeading "nfinity".toList r2).map (fun r => (.float "-inf", r))
        | _ => parseJNumber true rest
      else if c.isDigit then parseJNumber false (c :: rest)
      else none

/-- Object members after `{` (whitespace already skipped); `first` allows the
immediate `}` of an empty object and forbids a trailing comma. -/
def parseJObjItems : Nat → List Char → Bool →
    Option (List (String × Value) × List Char)
  | 0, _, _ => none
  | fuel + 1, cs, first =>
    match cs with
    | [] => none
    | c :: rest =>
      if first && c = rbrace then some ([], rest)
      else if c = '"' then
        match parseJStringAux rest with
        | none => none
        | some (kcs, r1) =>
          match skipWs r1 with
          | ':' :: r2 =>
            match parseJValue fuel (skipWs r2) with
            | none => none
            | some (v, r3) =>
              match skipWs r3 with
              | [] => none
              | c4 :: r4 =>
                if c4 = ',' then
                  (parseJObjItems fuel (skipWs r4) false).map
                    (fun p => ((String.mk kcs, v) :: p.1, p.2))
                else if c4 = rbrace then some ([(String.mk kcs, v)], r4)
                else none
          | _ => none
      else none

/-- Array members after `[` (whitespace already skipped). -/
def parseJArrItems : Nat → List Char → Bool → Option (List Value × List Char)
  | 0, _, _ => none
  | fuel + 1, cs, first =>
    match cs with
    | [] => none
    | c :: rest =>
      if first && c = ']' then some ([], rest)
      else
        match parseJValue fuel (c :: rest) with
        | none => none
        | some (v, r1) =>
          match skipWs r1 with
          | [] => none
          | c2 :: r2 =>
            if c2 = ',' then
              (parseJArrItems fuel (skipWs r2) false).map (fun p => (v :: p.1, p.2))
            else if c2 = ']' then some ([v], r2)
            else none

end

/-- `json.loads`: leading whitespace skipped, one value, trailing whitespace
only. -/
def pyJsonLoads (s : String) : Option Value :=
  match parseJValue (s.toList.length + 1) (skipWs s.toList) with
  | some (v, rest) => if (skipWs rest).isEmpty then some v else none
  | none => none

/-- Python `len()` succeeds on sized values; on ints, bools, floats and
`None` it raises `TypeError`. -/
def hasLen : Value → Bool
  | .str _ => true
  | .list _ => true
  | .dict _ => true
  | _ => false

/-- The single-step fallback plans of `generate_plan`. -/
def errorPlanDict (description reasoning : String) : Value :=
  .dict [("plan", .list [.dict [("description", .str description), ("tool_name", .null),
                                ("tool_args", .null)]]),
         ("reasoning", .str reasoning)]

/-- The result handling of `LLMManager.generate_plan` applied to the LM
completion text: `json.loads` on the raw content (no unwrapping), with the
`JSONDecodeError` fallback, and the logging line
`len(plan_data.get('plan', []))` whose `AttributeError`/`TypeError` on
non-dict roots or unsized `plan` values is caught by the outer handler. -/
def generatePlanParse (parseErrMsg genErrMsg : String) (content : String) : Value :=
  match pyJsonLoads content with
  | none => errorPlanDict "Error parsing plan" ("Error: " ++ parseErrMsg)
  | some v =>
    match v with
    | .dict kvs =>
      if hasLen (pyGetD kvs "plan" (.list [])) then .dict kvs
      else errorPlanDict "Error generating plan" ("Error: " ++ genErrMsg)
    | _ => errorPlanDict "Error generating plan" ("Error: " ++ genErrMsg)

end Catalyst

namespace Catalyst

/-! ### Spec-side definitions, for comparison with the code models -/

/-- The status fold exactly as the spec states it (first matching rule; no
empty-plan guard, since the spec speaks of plans with at least one step). -/
def specPlanStatusFold (steps : List PlanStep) : PStatus :=
  if steps.any (fun s => s.status == PStatus.failed) then .failed
  else if steps.all (fun s => s.status == PStatus.completed) then .completed
  else if steps.any (fun s => s.status == PStatus.in_progress) then .in_progress
  else if steps.any (fun s => s.status == PStatus.pending) then .pending
  else .in_progress

/-- The verb set as the claim states it (eleven verbs). -/
def claimedGenerationKeywords : List String :=
  ["generate", "create", "tell", "write", "compose", "explain", "answer",
   "provide", "describe", "synthesize", "summarize"]

/-- The backtick character, by code point. -/
def backtick : Char := Char.ofNat 96

/-! ### Concrete sample data for witnesses and counterexamples -/

def sampleToolStep : PlanStep :=
  { id := .str "s1", description := .str "Add the numbers", tool_name := .str "adder",
    tool_args := .dict [("a", .int 2), ("b", .int 3)], depends_on := .list [],
    status := .completed, result := .int 5, error := .null, metadata := .dict [] }

def sampleGenStep : PlanStep :=
  { id := .str "s2", description := .str "Explain the sum", tool_name := .null,
    tool_args := .dict [], depends_on := .list [], status := .completed,
    result := .str "hello", error := .null, metadata := .dict [] }

def samplePendingStep : PlanStep :=
  { id := .str "s3", description := .str "Check the output", tool_name := .null,
    tool_args := .dict [], depends_on := .list [], status := .pending,
    result := .null, error := .null, metadata := .dict [] }

def sampleCompletedA : PlanStep :=
  { id := .str "a", description := .str "Fetch the page", tool_name := .str "web_fetch",
    tool_args := .dict [], depends_on := .list [], status := .completed,
    result := .str "page text", error := .null, metadata := .dict [] }

/-- A handler like the package manager's module-not-found one. -/
def sampleHandler : Handler :=
  { description := some (.str "Install missing Python module"),
    tool := .str "package_installer",
    argGen := some (fun _ _ => .dict [("packages", .list [.str "foo"])]) }

/-- Oracle for the recovery scenario: first call fails with a matching error,
the recovery call and the retry succeed. -/
def sampleOracle : Nat → ToolResult
  | 0 => { success := false, data := .null,
           error := some "ModuleNotFoundError: No module named 'foo'" }
  | 1 => { success := true, data := .str "installed", error := none }
  | _ => { success := true, data := .int 42, error := none }

/-- A plan with a tool step and a non-tool step that captured a result. -/
def samplePlanWithEarlyReturn : PlanModel :=
  { goal := "Add 2 and 3", steps := [sampleToolStep, sampleGenStep], metadata := [] }

/-- A plan with one pending non-tool step and no reasoning metadata. -/
def samplePlainPlan : PlanModel :=
  { goal := "Hello", steps := [samplePendingStep], metadata := [] }

end Catalyst

namespace Catalyst

/-! ## Supporting lemmas -/

mutual

theorem Value.beq_refl : ∀ a : Value, Value.beq a a = true
  | .null => rfl
  | .bool b => by simp [Value.beq]
  | .int n => by simp [Value.beq]
  | .float l => by simp [Value.beq]
  | .str s => by simp [Value.beq]
  | .list xs => by simpa [Value.beq] using Value.beqList_refl xs
  | .dict xs => by simpa [Value.beq] using Value.beqKVs_refl xs

theorem Value.beqList_refl : ∀ xs : List Value, Value.beqList xs xs = true
  | [] => rfl
  | x :: xs => by simp [Value.beqList, Value.beq_refl x, Value.beqList_refl xs]

theorem Value.beqKVs_refl : ∀ xs : List (String × Value), Value.beqKVs xs xs = true
  | [] => rfl
  | (k, v) :: xs => by simp [Value.beqKVs, Value.beq_refl v, Value.beqKVs_refl xs]

end

/-! ## C3: the plan status fold -/

/-- C3: for every plan with at least one step, `Plan.update_status` sets the
plan status by the first matching rule: FAILED if any step is FAILED; else
COMPLETED if all steps are COMPLETED; else IN_PROGRESS if any step is
IN_PROGRESS; else PENDING if some step is PENDING; otherwise IN_PROGRESS. -/
theorem plan_update_status_follows_spec_fold (steps : List PlanStep) (h : steps ≠ []) :
    foldPlanStatus steps = specPlanStatusFold steps := by
  have he : steps.isEmpty = false := by
    cases steps with
    | nil => exact absurd rfl h
    | cons a l => rfl
  simp [foldPlanStatus, specPlanStatusFold, he]

/-- Witness for C3 at a concrete two-step plan. -/
theorem plan_update_status_follows_spec_fold_witness :
    foldPlanStatus [sampleToolStep, samplePendingStep] =
      specPlanStatusFold [sampleToolStep, samplePendingStep] :=
  plan_update_status_follows_spec_fold [sampleToolStep, samplePendingStep] (by simp)

/-! ## C10: `execute_tool` on an unregistered name -/

/-- C10: for every name not registered in the registry and every argument
map, `execute_tool` returns a failed `ToolResult` with error exactly
`Tool '<name>' not found` and publishes no TOOL_INPUT or TOOL_OUTPUT event. -/
theorem execute_tool_missing_name (tools : List RegTool) (name : String) (args : Value)
    (h : getToolReg tools name = none) :
    execute_tool tools name args =
      ({ success := false, data := .null,
         error := some ("Tool '" ++ name ++ "' not found") }, []) := by
  unfold execute_tool
  rw [h]

/-- Witness for C10: the empty registry and the name `adder`. -/
theorem execute_tool_missing_name_witness :
    execute_tool [] "adder" (.dict []) =
      ({ success := false, data := .null, error := some "Tool 'adder' not found" }, []) :=
  execute_tool_missing_name [] "adder" (.dict []) rfl

end Catalyst

namespace Catalyst

/-! ## C9: step result / success / error relationship -/

/-- C9 counterexample: a successful `ToolResult` with `data=None` (for
instance `ToolResult.success_result()` from a function tool returning
nothing) gives a recorded result of `None` with `success=true`, refuting the
claimed equivalence `result == null ⇔ success == false`. -/
theorem step_record_equivalence_counterexample :
    (recordToolOutcome { success := true, data := .null, error := none }).1 = Value.null
    ∧ ({ success := true, data := .null, error := none } : ToolResult).success = true
    ∧ ¬(((recordToolOutcome { success := true, data := .null, error := none }).1 = Value.null)
        ↔ ({ success := true, data := .null, error := none } : ToolResult).success = false) := by
  refine ⟨rfl, rfl, ?_⟩
  intro hiff
  have h := hiff.mp rfl
  simp at h

/-- C9 (amended): after a tool step, the recorded result is the ToolResult's
data on success and `None` on failure, and the recorded error is `None` on
success and the ToolResult's error on failure; consequently success implies
an empty recorded error and failure implies a null recorded result, and the
claimed three-way equivalence holds whenever the ToolResult has non-null
data on success and a non-empty error on failure. -/
theorem step_record_fields (r : ToolResult) :
    (recordToolOutcome r).1 = (if r.success then r.data else Value.null)
    ∧ (r.success = true → (recordToolOutcome r).2 = Value.null)
    ∧ (r.success = false → (recordToolOutcome r).1 = Value.null)
    ∧ ((r.success = true → r.data ≠ Value.null) →
       (r.success = false → ∃ s, r.error = some s ∧ s ≠ "") →
       ((((recordToolOutcome r).1 = Value.null) ↔ r.success = false)
         ∧ ((r.success = false) ↔ truthy (recordToolOutcome r).2 = true))) := by
  obtain ⟨su, d, e⟩ := r
  cases su
  · refine ⟨rfl, (fun h => nomatch h), (fun _ => rfl), ?_⟩
    intro _ h2
    obtain ⟨s, hs, hne⟩ := h2 rfl
    subst hs
    simp [recordToolOutcome, truthy, hne]
  · refine ⟨rfl, (fun _ => rfl), (fun h => nomatch h), ?_⟩
    intro h1 _
    have hd := h1 rfl
    simp [recordToolOutcome, truthy, hd]

/-- Witness for C9 (amended) at a successful result with data. -/
theorem step_record_fields_witness :
    (((recordToolOutcome { success := true, data := Value.str "ok", error := none }).1 = Value.null)
      ↔ ({ success := true, data := Value.str "ok", error := none } : ToolResult).success = false) :=
  ((step_record_fields _).2.2.2 (fun _ => by simp) (fun h => by simp at h)).1

/-! ## C8: generation-step classification -/

/-- C8 counterexample: `"Summarize the results"` contains a verb of the
claimed eleven-verb set but none of the code's nine verbs, so the executor
treats it as a non-generation step and finishes it with the fixed success
string without consulting the LM. -/
theorem generation_verbs_counterexample :
    claimedGenerationKeywords.any
        (fun k => strContainsSub (pyLower "Summarize the results") k) = true
    ∧ isGenerationStep "Summarize the results" = false
    ∧ runNonToolStep "unused" "Summarize the results" =
        { result := .str "Step completed successfully", lmInvoked := false } := by
  refine ⟨rfl, rfl, rfl⟩

/-- C8 (amended): a step without a tool is classified as a generation step
iff its lower-cased description contains one of the nine verbs
generate, create, tell, write, compose, explain, answer, provide, describe;
every non-generation step succeeds immediately with result exactly
`Step completed successfully` and does not invoke the LM. -/
theorem generation_step_classification (d llmResponse : String) :
    (isGenerationStep d = true ↔ ∃ k ∈ generationKeywords, strContainsSub (pyLower d) k = true)
    ∧ (isGenerationStep d = false →
        runNonToolStep llmResponse d =
          { result := .str "Step completed successfully", lmInvoked := false }) := by
  constructor
  · simp [isGenerationStep, List.any_eq_true]
  · intro h
    simp [runNonToolStep, h]

/-- Witness for C8 (amended) at a non-generation description. -/
theorem generation_step_classification_witness :
    runNonToolStep "resp" "Check the output" =
      { result := .str "Step completed successfully", lmInvoked := false } :=
  (generation_step_classification "Check the output" "resp").2 rfl

end Catalyst

namespace Catalyst

/-! ## C5: duplicate-step suppression -/

/-- C5: if some already-executed record has the same description
(case-insensitively) and the same tool name, the selected step is marked
COMPLETED with result exactly
`Step skipped to avoid duplication of previous step` and the executor (and
hence neither the tool registry nor the LM) is not invoked. -/
theorem duplicate_step_skipped
    (executed : List (List (String × Value))) (runExec : PlanStep → Bool × PlanStep)
    (step : PlanStep) (d : List (String × Value)) (ed sd : String)
    (hd : d ∈ executed)
    (hdesc : pyGetD d "description" (.str "") = .str ed)
    (hsdesc : step.description = .str sd)
    (hlow : pyLower ed = pyLower sd)
    (htool : pyGet d "tool_name" = step.tool_name) :
    engineStepCore executed runExec step =
      { step := { step with status := PStatus.completed,
                            result := .str "Step skipped to avoid duplication of previous step" },
        executorInvoked := false } := by
  have hdup : isDuplicateStep executed step = true := by
    unfold isDuplicateStep
    rw [List.any_eq_true]
    refine ⟨d, hd, ?_⟩
    rw [hdesc, hsdesc, htool]
    simp [hlow, Value.beq_refl]
  simp [engineStepCore, hdup]

/-- Witness for C5: a record matching the sample tool step up to case. -/
theorem duplicate_step_skipped_witness :
    engineStepCore [[("description", .str "Add The Numbers"), ("tool_name", .str "adder")]]
        (fun s => (true, s)) sampleToolStep =
      { step := { sampleToolStep with status := PStatus.completed,
                                      result := .str "Step skipped to avoid duplication of previous step" },
        executorInvoked := false } :=
  duplicate_step_skipped _ _ _
    [("description", .str "Add The Numbers"), ("tool_name", .str "adder")]
    "Add The Numbers" "Add the numbers" (by simp) rfl rfl rfl rfl

/-! ## C7: success response selection -/

/-- C7 counterexample: a plan that contains a tool step but also a non-tool
step with a captured result; the code returns that step's result verbatim
instead of an LM-generated response. -/
theorem success_response_counterexample :
    generateSuccessResponse samplePlanWithEarlyReturn = .stepResult (.str "hello")
    ∧ (samplePlanWithEarlyReturn.steps.filter (fun s => truthy s.tool_name)).isEmpty = false
    ∧ (generateSuccessResponse samplePlanWithEarlyReturn).isLlm = false := by
  refine ⟨rfl, rfl, rfl⟩

/-- C7 (amended): if some non-tool step holds a truthy result other than the
fixed success string, that result is returned verbatim; otherwise, with no
tool steps and no deliberate-no-tools detection the fixed generic message is
returned, and in every remaining case (tool steps present, or deliberately
tool-free) the response is generated by the LM. -/
theorem success_response_policy (p : PlanModel) :
    (∀ s, p.steps.find? nonToolResultStep = some s →
        generateSuccessResponse p = .stepResult s.result)
    ∧ (p.steps.find? nonToolResultStep = none →
        (p.steps.filter (fun s => truthy s.tool_name)).isEmpty = true →
        deliberateNoTools p.metadata true = false →
        generateSuccessResponse p = .generic)
    ∧ (p.steps.find? nonToolResultStep = none →
        ((p.steps.filter (fun s => truthy s.tool_name)).isEmpty = false ∨
          deliberateNoTools p.metadata
            ((p.steps.filter (fun s => truthy s.tool_name)).isEmpty) = true) →
        (generateSuccessResponse p).isLlm = true) := by
  refine ⟨?_, ?_, ?_⟩
  · intro s hs
    simp [generateSuccessResponse, hs]
  · intro hn hemp hdel
    simp [generateSuccessResponse, hn, hemp, hdel]
  · intro hn hc
    cases hemp : (p.steps.filter (fun s => truthy s.tool_name)).isEmpty with
    | false =>
      simp only [generateSuccessResponse, hn, hemp]
      simp [SuccessOut.isLlm]
    | true =>
      rcases hc with hne | hdel
      · rw [hemp] at hne
        exact absurd hne (by simp)
      · rw [hemp] at hdel
        simp [generateSuccessResponse, hn, hemp, hdel]
        split <;> rfl

/-- Witness for C7 (amended): the plain plan gets the generic message. -/
theorem success_response_policy_witness :
    generateSuccessResponse samplePlainPlan = .generic :=
  (success_response_policy samplePlainPlan).2.1 rfl rfl rfl

end Catalyst

namespace Catalyst

/-! ## C4: recovery lookup and the single retry -/

theorem find?_append_of_forall_false {α} (p : α → Bool) (l1 l2 : List α)
    (h : ∀ a ∈ l1, p a = false) : (l1 ++ l2).find? p = l2.find? p := by
  induction l1 with
  | nil => rfl
  | cons a l ih =>
    have ha : p a = false := h a (List.mem_cons_self a l)
    have ih' := ih (fun b hb => h b (List.mem_cons_of_mem a hb))
    simp [List.find?_cons, ha, ih']

/-- C4: when a tool step's execution returns a failed ToolResult (with a
non-empty error), the executor asks the registry for a recovery step; the
registry returns the handler of the first registered pattern occurring as a
substring of the error text, with the handler's tool name and the arguments
produced by `arg_generator(error_text, failed_step)`; the recovery step is
then executed, and exactly when it succeeds, the original step is retried
once with the same arguments. -/
theorem tool_failure_recovery_and_retry
    (oracle : Nat → ToolResult) (hs1 hs2 : List (String × Handler)) (pat : String)
    (h : Handler) (llmFix e : String) (step : PlanStep) (g : String → Value → Value)
    (h1 : (oracle 0).success = false)
    (h2 : (oracle 0).error = some e) (h3 : e ≠ "")
    (hpat : strContainsSub e pat = true)
    (hfirst : ∀ q ∈ hs1, strContainsSub e q.1 = false)
    (htool : truthy h.tool = true)
    (hgen : h.argGen = some g) :
    find_error_handler (hs1 ++ (pat, h) :: hs2) e = some h
    ∧ create_recovery_step (hs1 ++ (pat, h) :: hs2) e step.toDict =
        some { description := h.description.getD
                 (.str ("Recover from error using " ++ pyStr h.tool)),
               tool_name := h.tool, tool_args := g e step.toDict }
    ∧ runToolStep oracle (hs1 ++ (pat, h) :: hs2) llmFix step =
        (if (oracle 1).success then
          { calls := [(step.tool_name, step.tool_args), (h.tool, g e step.toDict),
                      (step.tool_name, step.tool_args)],
            final := oracle 2, finalArgs := step.tool_args }
        else
          { calls := [(step.tool_name, step.tool_args), (h.tool, g e step.toDict)],
            final := oracle 0, finalArgs := step.tool_args }) := by
  have hfind : find_error_handler (hs1 ++ (pat, h) :: hs2) e = some h := by
    unfold find_error_handler
    rw [if_neg h3]
    rw [find?_append_of_forall_false _ hs1 _ hfirst]
    simp [List.find?_cons, hpat]
  have hrec : create_recovery_step (hs1 ++ (pat, h) :: hs2) e step.toDict =
      some { description := h.description.getD
               (.str ("Recover from error using " ++ pyStr h.tool)),
             tool_name := h.tool, tool_args := g e step.toDict } := by
    unfold create_recovery_step
    rw [hfind]
    simp [htool, hgen]
  refine ⟨hfind, hrec, ?_⟩
  simp only [runToolStep]
  rw [h1, h2]
  simp only [Bool.false_eq_true, if_false]
  rw [if_neg h3, hrec]

/-- Witness for C4: the module-not-found scenario of the sample handler. -/
theorem tool_failure_recovery_and_retry_witness :
    runToolStep sampleOracle [("No module named", sampleHandler)] "unused" sampleToolStep =
      { calls := [(Value.str "adder", Value.dict [("a", .int 2), ("b", .int 3)]),
                  (Value.str "package_installer", Value.dict [("packages", .list [.str "foo"])]),
                  (Value.str "adder", Value.dict [("a", .int 2), ("b", .int 3)])],
        final := { success := true, data := .int 42, error := none },
        finalArgs := Value.dict [("a", .int 2), ("b", .int 3)] } := by
  have h := (tool_failure_recovery_and_retry sampleOracle [] []
    "No module named" sampleHandler "unused"
    "ModuleNotFoundError: No module named 'foo'" sampleToolStep
    (fun _ _ => .dict [("packages", .list [.str "foo"])])
    rfl rfl (by decide) rfl (by simp) rfl rfl).2.2
  exact h.trans (by rfl)

end Catalyst

namespace Catalyst

/-! ## C1: completed steps across re-planning -/

theorem reconstructEntry_reuse (steps : List PlanStep) (fresh : String)
    (kvs : List (String × Value)) (orig : PlanStep) (st : PStatus) (status_str : String)
    (hid : truthy (pyGet kvs "id") = true)
    (hfind : completedIndexFind steps (pyGet kvs "id") = some orig)
    (hstat : pyGetD kvs "status" (.str "pending") = .str status_str)
    (hnp : pyLower status_str ≠ "pending")
    (hval : statusOfString status_str = some st) :
    reconstructEntry steps fresh kvs = .ok { orig with status := st } := by
  have hb : (pyLower status_str != "pending") = true := by simp [hnp]
  unfold reconstructEntry
  rw [hstat]
  simp only [hid, if_true, hfind, Option.isSome_some, hb, Bool.and_self, hval]

theorem goRecon_preserves (steps : List PlanStep) (fresh : Nat → String)
    (kvs : List (String × Value)) (orig : PlanStep) (st : PStatus) (status_str : String)
    (hid : truthy (pyGet kvs "id") = true)
    (hfind : completedIndexFind steps (pyGet kvs "id") = some orig)
    (hstat : pyGetD kvs "status" (.str "pending") = .str status_str)
    (hnp : pyLower status_str ≠ "pending")
    (hval : statusOfString status_str = some st) :
    ∀ (entries : List Value) (i : Nat) (out : List PlanStep),
      Value.dict kvs ∈ entries → goRecon steps fresh i entries = .ok out →
      out.any (fun s => Value.beq s.id orig.id && Value.beq s.result orig.result) = true := by
  intro entries
  induction entries with
  | nil => intro i out hmem; cases hmem
  | cons e rest ih =>
    intro i out hmem hok
    rcases List.mem_cons.mp hmem with he | hrest
    · subst he
      have hentry := reconstructEntry_reuse steps (fresh i) kvs orig st status_str
        hid hfind hstat hnp hval
      simp only [goRecon, hentry] at hok
      cases hR : goRecon steps fresh (i + 1) rest with
      | ok l =>
        rw [hR] at hok
        simp only [Except.map] at hok
        cases hok
        simp [Value.beq_refl]
      | error msg =>
        rw [hR] at hok
        simp [Except.map] at hok
    · cases e with
      | dict kvs2 =>
        simp only [goRecon] at hok
        cases hE : reconstructEntry steps (fresh i) kvs2 with
        | ok st2 =>
          rw [hE] at hok
          cases hR : goRecon steps fresh (i + 1) rest with
          | ok l =>
            rw [hR] at hok
            simp only [Except.map] at hok
            cases hok
            have := ih (i + 1) l hrest hR
            simp only [List.any_cons, this, Bool.or_true]
          | error msg =>
            rw [hR] at hok
            simp [Except.map] at hok
        | error msg =>
          rw [hE] at hok
          cases hok
      | null => exact ih (i + 1) out hrest (by simpa [goRecon] using hok)
      | bool b => exact ih (i + 1) out hrest (by simpa [goRecon] using hok)
      | int n => exact ih (i + 1) out hrest (by simpa [goRecon] using hok)
      | float l => exact ih (i + 1) out hrest (by simpa [goRecon] using hok)
      | str s => exact ih (i + 1) out hrest (by simpa [goRecon] using hok)
      | list xs => exact ih (i + 1) out hrest (by simpa [goRecon] using hok)

/-- C1 counterexample: a re-plan whose returned step list is empty (the LM
answered `{"plan": [], ...}`) drops the completed step entirely: after
reconstruction its id is no longer present in `plan.steps`. -/
theorem replan_completed_preservation_counterexample :
    reconstructSteps [sampleCompletedA] (fun _ => "u0") [] = .ok []
    ∧ sampleCompletedA.status = PStatus.completed
    ∧ ([] : List PlanStep).any (fun s => Value.beq s.id sampleCompletedA.id) = false :=
  ⟨rfl, rfl, rfl⟩

/-- C1 (amended): a completed step survives re-planning exactly when the
returned step list mentions it: if some entry of the returned list is a dict
whose (truthy) `id` resolves in the completed-index to that step and whose
status string is valid and other than `pending`, then after reconstruction
the step's id is still present among `plan.steps` with its captured result
unchanged (the original PlanStep object is reused). -/
theorem replan_reuses_completed_steps (steps : List PlanStep) (fresh : Nat → String)
    (entries : List Value) (kvs : List (String × Value)) (orig : PlanStep)
    (st : PStatus) (status_str : String) (out : List PlanStep)
    (hmem : Value.dict kvs ∈ entries)
    (hid : truthy (pyGet kvs "id") = true)
    (hfind : completedIndexFind steps (pyGet kvs "id") = some orig)
    (hstat : pyGetD kvs "status" (.str "pending") = .str status_str)
    (hnp : pyLower status_str ≠ "pending")
    (hval : statusOfString status_str = some st)
    (hok : reconstructSteps steps fresh entries = .ok out) :
    out.any (fun s => Value.beq s.id orig.id && Value.beq s.result orig.result) = true :=
  goRecon_preserves steps fresh kvs orig st status_str hid hfind hstat hnp hval
    entries 0 out hmem hok

/-- Witness for C1 (amended): a one-entry re-plan that reuses the completed
step. -/
theorem replan_reuses_completed_steps_witness :
    ([sampleCompletedA].any
      (fun s => Value.beq s.id sampleCompletedA.id
        && Value.beq s.result sampleCompletedA.result)) = true :=
  replan_reuses_completed_steps [sampleCompletedA] (fun _ => "u0")
    [.dict [("id", .str "a"), ("status", .str "completed")]]
    [("id", .str "a"), ("status", .str "completed")]
    sampleCompletedA .completed "completed" [sampleCompletedA]
    (by simp) rfl rfl rfl (by decide) rfl rfl

end Catalyst

namespace Catalyst

/-! ## C2: placeholder resolution -/

theorem dropLeading_append (p r : List Char) : dropLeading p (p ++ r) = some r := by
  induction p with
  | nil => rfl
  | cons a t ih => simp [dropLeading, ih]

theorem dropLeading_none_of_head (a : Char) (pt : List Char) (c : Char) (cs : List Char)
    (h : a ≠ c) : dropLeading (a :: pt) (c :: cs) = none := by
  simp [dropLeading, h]

theorem dropLeading_length (p : List Char) :
    ∀ cs r, dropLeading p cs = some r → p.length + r.length = cs.length := by
  induction p with
  | nil =>
    intro cs r h
    simp [dropLeading] at h
    subst h
    simp
  | cons a t ih =>
    intro cs r h
    cases cs with
    | nil => simp [dropLeading] at h
    | cons c cs' =>
      by_cases hac : a = c
      · simp only [dropLeading, if_pos hac] at h
        have := ih cs' r h
        simp [List.length_cons]
        omega
      · simp [dropLeading, hac] at h

theorem takeDigits_length (cs : List Char) :
    (takeDigits cs).1.length + (takeDigits cs).2.length = cs.length := by
  induction cs with
  | nil => rfl
  | cons c cs' ih =>
    by_cases hc : c.isDigit
    · simp only [takeDigits, if_pos hc]
      simp only [List.length_cons]
      omega
    · simp [takeDigits, hc]

theorem takeDigits_digits_append (ds rest : List Char)
    (hds : ∀ c ∈ ds, c.isDigit = true)
    (hrest : ∀ c, rest.head? = some c → c.isDigit = false) :
    takeDigits (ds ++ rest) = (ds, rest) := by
  induction ds with
  | nil =>
    cases rest with
    | nil => rfl
    | cons r rs =>
      have hr := hrest r rfl
      simp [takeDigits, hr]
  | cons d dt ih =>
    have hd : d.isDigit = true := hds d (List.mem_cons_self d dt)
    have ih' := ih (fun c hc => hds c (List.mem_cons_of_mem d hc))
    simp [takeDigits, hd, ih']

theorem matchToken_none_of_head (c : Char) (rest : List Char) (h : c ≠ lbrace) :
    matchToken (c :: rest) = none := by
  unfold matchToken
  rw [show tokenStart = lbrace :: "step_".toList from rfl]
  rw [dropLeading_none_of_head _ _ _ _ (fun he => h he.symm)]

theorem tokenChars_cons (ds : List Char) :
    tokenChars ds = lbrace :: ("step_".toList ++ ds ++ tokenEnd) := by
  simp [tokenChars, tokenStart]

theorem matchToken_token (ds : List Char) (post : List Char)
    (hne : ds ≠ []) (hdig : ∀ c ∈ ds, c.isDigit = true) :
    matchToken (tokenChars ds ++ post) = some (tokenStr ds, digitsToNat ds, post) := by
  unfold matchToken
  have h1 : dropLeading tokenStart (tokenChars ds ++ post) = some (ds ++ (tokenEnd ++ post)) := by
    have : tokenChars ds ++ post = tokenStart ++ (ds ++ (tokenEnd ++ post)) := by
      simp [tokenChars, List.append_assoc]
    rw [this, dropLeading_append]
  rw [h1]
  dsimp only
  have h2 : takeDigits (ds ++ (tokenEnd ++ post)) = (ds, tokenEnd ++ post) := by
    apply takeDigits_digits_append _ _ hdig
    intro c hc
    simp only [tokenEnd] at hc
    simp at hc
    subst hc
    rfl
  rw [h2]
  simp only [List.isEmpty_eq_true, hne, if_false]
  rw [dropLeading_append]
  simp [tokenStr, tokenChars]

theorem matchToken_consumes (cs : List Char) (t : String) (n : Nat) (r : List Char)
    (h : matchToken cs = some (t, n, r)) : r.length < cs.length := by
  unfold matchToken at h
  cases h1 : dropLeading tokenStart cs with
  | none => rw [h1] at h; cases h
  | some cs1 =>
    rw [h1] at h
    dsimp only at h
    by_cases he : (takeDigits cs1).1.isEmpty
    · rw [if_pos he] at h; cases h
    · rw [if_neg he] at h
      cases h2 : dropLeading tokenEnd (takeDigits cs1).2 with
      | none => rw [h2] at h; cases h
      | some cs3 =>
        rw [h2] at h
        cases h
        have e1 := dropLeading_length tokenStart cs cs1 h1
        have e2 := takeDigits_length cs1
        have e3 := dropLeading_length tokenEnd (takeDigits cs1).2 r h2
        simp [tokenStart, tokenEnd] at e1 e3
        omega

end Catalyst

namespace Catalyst

theorem findF_nil (fuel : Nat) : findF fuel [] = [] := by
  cases fuel <;> rfl

theorem findF_no_lbrace (cs : List Char) (h : ∀ c ∈ cs, c ≠ lbrace) :
    ∀ fuel, findF fuel cs = [] := by
  induction cs with
  | nil => intro fuel; exact findF_nil fuel
  | cons c rest ih =>
    intro fuel
    cases fuel with
    | zero => rfl
    | succ f =>
      simp only [findF]
      rw [matchToken_none_of_head c rest (h c (List.mem_cons_self c rest))]
      exact ih (fun x hx => h x (List.mem_cons_of_mem c hx)) f

theorem findMatches_cons_skip (c : Char) (rest : List Char) (h : c ≠ lbrace) :
    findMatches (c :: rest) = findMatches rest := by
  unfold findMatches
  simp only [List.length_cons, findF]
  rw [matchToken_none_of_head c rest h]

theorem findMatches_append_skip (pre rest : List Char) (h : ∀ c ∈ pre, c ≠ lbrace) :
    findMatches (pre ++ rest) = findMatches rest := by
  induction pre with
  | nil => rfl
  | cons c pt ih =>
    rw [List.cons_append,
      findMatches_cons_skip c (pt ++ rest) (h c (List.mem_cons_self c pt))]
    exact ih (fun x hx => h x (List.mem_cons_of_mem c hx))

theorem findMatches_token (ds post : List Char)
    (hne : ds ≠ []) (hdig : ∀ c ∈ ds, c.isDigit = true)
    (hpost : ∀ c ∈ post, c ≠ lbrace) :
    findMatches (tokenChars ds ++ post) = [(tokenStr ds, digitsToNat ds)] := by
  have hcons : tokenChars ds ++ post = lbrace :: (("step_".toList ++ ds ++ tokenEnd) ++ post) := by
    rw [tokenChars_cons, List.cons_append]
  unfold findMatches
  rw [hcons]
  simp only [List.length_cons, findF]
  rw [← hcons, matchToken_token ds post hne hdig]
  dsimp only
  rw [findF_no_lbrace post hpost]

end Catalyst

namespace Catalyst

theorem replaceF_no_occ (pt rep : List Char) :
    ∀ (cs : List Char), (∀ c ∈ cs, c ≠ lbrace) → ∀ fuel,
      replaceF (lbrace :: pt) rep fuel cs = cs := by
  intro cs
  induction cs with
  | nil => intro _ fuel; cases fuel <;> rfl
  | cons c rest ih =>
    intro h fuel
    cases fuel with
    | zero => rfl
    | succ f =>
      have hdl : dropLeading (lbrace :: pt) (c :: rest) = none :=
        dropLeading_none_of_head _ _ _ _ (fun he => h c (List.mem_cons_self c rest) he.symm)
      simp only [replaceF, List.isEmpty_cons, Bool.false_eq_true, if_false, hdl]
      rw [ih (fun x hx => h x (List.mem_cons_of_mem c hx)) f]

end Catalyst

namespace Catalyst

theorem replaceF_central (pt rep : List Char) :
    ∀ (pre : List Char) (post : List Char) (fuel : Nat),
      (∀ c ∈ pre, c ≠ lbrace) → (∀ c ∈ post, c ≠ lbrace) →
      (pre ++ (lbrace :: pt) ++ post).length ≤ fuel →
      replaceF (lbrace :: pt) rep fuel (pre ++ (lbrace :: pt) ++ post) =
        pre ++ rep ++ post := by
  intro pre
  induction pre with
  | nil =>
    intro post fuel _ hpost hlen
    simp only [List.nil_append] at hlen ⊢
    cases fuel with
    | zero => simp at hlen
    | succ f =>
      rw [show (lbrace :: pt) ++ post = lbrace :: (pt ++ post) from rfl]
      simp only [replaceF, List.isEmpty_cons, Bool.false_eq_true, if_false]
      rw [show lbrace :: (pt ++ post) = (lbrace :: pt) ++ post from rfl]
      rw [dropLeading_append]
      dsimp only
      rw [replaceF_no_occ pt rep post hpost f]
  | cons c pre' ih =>
    intro post fuel hpre hpost hlen
    cases fuel with
    | zero => simp at hlen
    | succ f =>
      have hc : c ≠ lbrace := hpre c (List.mem_cons_self c pre')
      rw [show (c :: pre') ++ (lbrace :: pt) ++ post =
          c :: (pre' ++ (lbrace :: pt) ++ post) from by simp]
      simp only [replaceF, List.isEmpty_cons, Bool.false_eq_true, if_false]
      rw [dropLeading_none_of_head _ _ _ _ (fun he => hc he.symm)]
      dsimp only
      rw [ih post f (fun x hx => hpre x (List.mem_cons_of_mem c hx)) hpost
        (by simp at hlen ⊢; omega)]
      simp

end Catalyst

namespace Catalyst

theorem strToList_append (a b : String) : (a ++ b).toList = a.toList ++ b.toList := by
  cases a
  cases b
  rfl

theorem strMk_triple (a b c : String) :
    String.mk (a.toList ++ b.toList ++ c.toList) = a ++ b ++ c := by
  cases a
  cases b
  cases c
  rfl

theorem strToList_ne_nil (s : String) (h : s ≠ "") : s.toList ≠ [] := by
  intro he
  apply h
  cases s with
  | mk data =>
    cases data with
    | nil => rfl
    | cons c t => cases he

theorem tok_ne_concat (ds : List Char) (pre post : String) (h : pre ≠ "" ∨ post ≠ "") :
    tokenStr ds ≠ pre ++ tokenStr ds ++ post := by
  intro he
  have hl := congrArg (fun s => s.toList.length) he
  simp only [strToList_append, List.length_append] at hl
  rcases h with hp | hp
  · have := List.length_pos.mpr (strToList_ne_nil pre hp)
    omega
  · have := List.length_pos.mpr (strToList_ne_nil post hp)
    omega

theorem placeholderInRange_iff (es : List (List (String × Value))) (n : Nat) :
    placeholderInRange es n = true ↔ (1 ≤ n ∧ n - 1 < es.length) := by
  simp [placeholderInRange]

/-- C2 (amended): for a placeholder with digit run `ds` denoting the 1-based
index `digitsToNat ds`: when the token is the whole string, resolution
substitutes the executed step's raw result value (type preserved) if the
index is in range of the executed steps and leaves the token verbatim
otherwise; when the token is embedded (non-empty prefix or suffix without
further `{`), resolution substitutes `json.dumps` of the result for dicts
and lists and Python `str()` of the result otherwise (identity on strings,
`True`/`False`/`None` for booleans and null), and leaves the token verbatim
when the index is out of range. -/
theorem placeholder_resolution_characterized
    (es : List (List (String × Value))) (ds : List Char) (pre post : String)
    (hne : ds ≠ []) (hdig : ∀ c ∈ ds, c.isDigit = true)
    (hpre : ∀ c ∈ pre.toList, c ≠ lbrace) (hpost : ∀ c ∈ post.toList, c ≠ lbrace) :
    (resolvePlaceholders es (.str (tokenStr ds)) =
      if 1 ≤ digitsToNat ds ∧ digitsToNat ds - 1 < es.length
      then stepResultAt es (digitsToNat ds - 1) else .str (tokenStr ds))
    ∧ ((pre ≠ "" ∨ post ≠ "") →
      resolvePlaceholders es (.str (pre ++ tokenStr ds ++ post)) =
        .str (pre ++ (if 1 ≤ digitsToNat ds ∧ digitsToNat ds - 1 < es.length
          then encodeEmbedded (stepResultAt es (digitsToNat ds - 1))
          else tokenStr ds) ++ post)) := by
  constructor
  · have hms : findMatches ((tokenStr ds).toList) = [(tokenStr ds, digitsToNat ds)] := by
      have h0 := findMatches_token ds [] hne hdig (by simp)
      simpa using h0
    simp only [resolvePlaceholders, resolveString, hms, if_true]
    cases hb : placeholderInRange es (digitsToNat ds) with
    | true =>
      rw [if_pos ((placeholderInRange_iff es _).mp hb)]
      rfl
    | false =>
      have hnr : ¬(1 ≤ digitsToNat ds ∧ digitsToNat ds - 1 < es.length) := by
        intro hp
        rw [(placeholderInRange_iff es _).mpr hp] at hb
        cases hb
      rw [if_neg hnr]
      rfl
  · intro hnt
    have hlist : (pre ++ tokenStr ds ++ post).toList =
        pre.toList ++ (tokenChars ds ++ post.toList) := by
      rw [strToList_append, strToList_append]
      simp [tokenStr, List.append_assoc]
    have hms : findMatches ((pre ++ tokenStr ds ++ post).toList) =
        [(tokenStr ds, digitsToNat ds)] := by
      rw [hlist, findMatches_append_skip _ _ hpre,
        findMatches_token ds post.toList hne hdig hpost]
    simp only [resolvePlaceholders, resolveString, hms]
    rw [if_neg (tok_ne_concat ds pre post hnt)]
    simp only [List.reverse_cons, List.reverse_nil, List.nil_append, List.foldl_cons,
      List.foldl_nil, embedStep]
    cases hb : placeholderInRange es (digitsToNat ds) with
    | true =>
      rw [if_pos ((placeholderInRange_iff es _).mp hb)]
      simp only [if_true]
      unfold pyReplaceAll
      rw [show (tokenStr ds).toList = tokenChars ds from rfl]
      rw [tokenChars_cons]
      have hlist' : (pre ++ tokenStr ds ++ post).toList =
          pre.toList ++ (lbrace :: ("step_".toList ++ ds ++ tokenEnd)) ++ post.toList := by
        rw [hlist, tokenChars_cons]
        simp [List.append_assoc]
      rw [hlist']
      rw [replaceF_central _ _ pre.toList post.toList _ hpre hpost (by simp)]
      rw [strMk_triple]
    | false =>
      have hnr : ¬(1 ≤ digitsToNat ds ∧ digitsToNat ds - 1 < es.length) := by
        intro hp
        rw [(placeholderInRange_iff es _).mpr hp] at hb
        cases hb
      rw [if_neg hnr]
      simp only [Bool.false_eq_true, if_false]

end Catalyst

namespace Catalyst

/-- C2 counterexample: executed step 1 resulted in the boolean `True`; the
embedded substitution uses Python `str`, producing `xTrue`, while the JSON
encoding the claim prescribes for non-string results would produce
`xtrue`. -/
theorem placeholder_embedded_encoding_counterexample :
    resolvePlaceholders [[("result", .bool true)]] (.str "x\x7bstep_1_result\x7d") =
      .str "xTrue"
    ∧ "x" ++ pyJsonDumps (Value.bool true) = "xtrue"
    ∧ Value.str "xTrue" ≠ Value.str ("x" ++ pyJsonDumps (Value.bool true)) := by
  refine ⟨rfl, rfl, ?_⟩
  intro h
  rw [show ("x" ++ pyJsonDumps (Value.bool true)) = "xtrue" from rfl] at h
  exact absurd (Value.str.inj h) (by decide)

/-- Witness for C2 (amended): the one-digit placeholder `1` embedded after
`x` against one executed step whose result is `True`. -/
theorem placeholder_resolution_characterized_witness :
    resolvePlaceholders [[("result", Value.bool true)]]
        (.str ("x" ++ tokenStr ['1'] ++ "")) =
      .str ("x" ++ (if 1 ≤ digitsToNat ['1']
          ∧ digitsToNat ['1'] - 1
              < ([[("result", Value.bool true)]] : List (List (String × Value))).length
        then encodeEmbedded (stepResultAt [[("result", Value.bool true)]] (digitsToNat ['1'] - 1))
        else tokenStr ['1']) ++ "") :=
  (placeholder_resolution_characterized [[("result", Value.bool true)]] ['1'] "x" ""
    (by decide) (by decide) (by decide) (by decide)).2 (Or.inl (by decide))

end Catalyst

namespace Catalyst

/-! ## C6: plan parsing strictness -/

theorem parseJValue_backtick (fuel : Nat) (rest : List Char) :
    parseJValue fuel (backtick :: rest) = none := by
  cases fuel <;> rfl

theorem pyJsonLoads_backtick (s : String) (rest : List Char)
    (h : skipWs s.toList = backtick :: rest) : pyJsonLoads s = none := by
  unfold pyJsonLoads
  rw [h, parseJValue_backtick]

/-- C6 counterexample: the LM completion `{"steps": []}` parses, and
`generate_plan` returns the parsed dict unchanged: there is no `plan` key
afterwards, so `steps` is not aliased to `plan` as the claim states. -/
theorem plan_parse_no_alias_counterexample :
    generatePlanParse "e1" "e2" "\x7b\"steps\": []\x7d" = .dict [("steps", .list [])]
    ∧ pyHasKey [("steps", Value.list [])] "plan" = false :=
  ⟨rfl, rfl⟩

/-- C6 (amended): plan parsing is strict `json.loads` on the raw completion:
a completion whose first non-whitespace character is a backtick (a code
fence) fails to parse and yields the single-step `Error parsing plan`
fallback; a root list makes the later `plan_data.get('plan', [])` logging
line raise, caught by the outer handler, yielding the `Error generating
plan` fallback; a root object is returned exactly as parsed (no key
aliasing), provided its `plan` value (defaulting to `[]`) supports
`len`. -/
theorem plan_parse_strictness (pm gm content : String) :
    (∀ rest, skipWs content.toList = backtick :: rest →
      generatePlanParse pm gm content =
        errorPlanDict "Error parsing plan" ("Error: " ++ pm))
    ∧ (∀ xs, pyJsonLoads content = some (.list xs) →
      generatePlanParse pm gm content =
        errorPlanDict "Error generating plan" ("Error: " ++ gm))
    ∧ (∀ kvs, pyJsonLoads content = some (.dict kvs) →
      hasLen (pyGetD kvs "plan" (.list [])) = true →
      generatePlanParse pm gm content = .dict kvs) := by
  refine ⟨?_, ?_, ?_⟩
  · intro rest h
    unfold generatePlanParse
    rw [pyJsonLoads_backtick content rest h]
  · intro xs h
    unfold generatePlanParse
    rw [h]
  · intro kvs h hl
    unfold generatePlanParse
    rw [h]
    simp [hl]

/-- Witness for C6 (amended): a fenced JSON completion falls back to the
parse-error plan. -/
theorem plan_parse_strictness_witness :
    generatePlanParse "e1" "e2" "```json\n\x7b\"plan\": []\x7d\n```" =
      errorPlanDict "Error parsing plan" "Error: e1" :=
  (plan_parse_strictness "e1" "e2" "```json\n\x7b\"plan\": []\x7d\n```").1 _ rfl

end Catalyst
